import Mathlib

/-!
Shallow embedding of the `MqttManager` class (src/src/MqttManager.h,
src/src/MqttManager.cpp).

The class wraps an asynchronous MQTT client.  We model:

* the member state (`mqtt_server`, `mqtt_port`, `lwt_topic`,
  `lastReconnectAttempt`, `reconnectDelay`) as a structure `MqttState`;
  the two fixed-size character buffers `mqtt_server[16]` and
  `lwt_topic[64]` are lists of exactly 16 / 64 characters, written by a
  model of `strncpy`;
* calls into the underlying `AsyncMqttClient` and lines written to
  `Serial` as a trace of `Event`s emitted by each method;
* the connection status of the underlying client as a boolean input
  `clientConnected` to each method (the client is an external
  collaborator whose status the code only queries);
* `millis()` as a `Nat` input reduced mod 2^32 (`unsigned long` on the
  target is 32 bits); the expression `millis() - lastReconnectAttempt`
  is 32-bit unsigned subtraction, modelled by `usub32`.

Each method returns the new state paired with the list of events it
emitted, in program order.
-/

set_option autoImplicit false

/-- The modulus of `unsigned long` (32-bit) arithmetic on the target. -/
def M32 : Nat := 4294967296

/-- The value `millis()` reports for an absolute time `t`. -/
def millisVal (t : Nat) : Nat := t % M32

/-- The 32-bit unsigned subtraction `a - b`, as in
`millis() - lastReconnectAttempt`. -/
def usub32 (a b : Nat) : Nat := (a % M32 + (M32 - b % M32)) % M32

/-- Model of C `strncpy(dst, src, n)` into a buffer of size `n`: `src` is
the source C string (its characters before the terminator); the resulting
buffer holds the first `n` characters of `src`, padded with NUL bytes if
`src` is shorter than `n`.  When `src` has length at least `n`, no NUL
terminator is written. -/
def strncpy (src : List Char) (n : Nat) : List Char :=
  if n ≤ src.length then src.take n
  else src ++ List.replicate (n - src.length) (Char.ofNat 0)

/-- Reading a buffer as a C string: the characters before the first NUL
byte (when the buffer holds no NUL, the whole buffer content — the source
would read past the end, which the model cuts off at the buffer size). -/
def cstr (buf : List Char) : List Char :=
  buf.takeWhile (fun c => c != Char.ofNat 0)

/-- Events observable from a method call: operations invoked on the
underlying `AsyncMqttClient`, and lines/fragments written to `Serial`. -/
inductive Event where
  | setServerOp (server : List Char) (port : Int)
  | setKeepAliveOp (seconds : Nat)
  | setWillOp (topic : List Char) (qos : Nat) (retain : Bool) (payload : List Char)
  | connectOp
  | publishOp (topic : List Char) (qos : Nat) (retain : Bool) (payload : List Char)
  | serialOut (msg : List Char)
deriving Repr, DecidableEq

/-- An event is a transport operation (an actual call into the MQTT
client), as opposed to serial logging. -/
def Event.isTransport : Event → Bool
  | .serialOut _ => false
  | _ => true

/-- An event is a publish operation on the transport. -/
def Event.isPublish : Event → Bool
  | .publishOp _ _ _ _ => true
  | _ => false

/-- The member state of `MqttManager` (MqttManager.h lines 20-28).
`mqtt_server` and `lwt_topic` are the raw contents of the 16- and 64-byte
buffers. -/
structure MqttState where
  mqtt_server : List Char
  mqtt_port : Int
  lwt_topic : List Char
  lastReconnectAttempt : Nat
  reconnectDelay : Nat
deriving Repr, DecidableEq

namespace MqttManager

/-- Model of `const unsigned long maxReconnectDelay = 32000`. -/
def maxReconnectDelay : Nat := 32000

/-- Model of `char offline_message[20] = "off"` read as a C string. -/
def offline_message : List Char := "off".toList

/-- Model of `char online_message[20] = "on"` read as a C string. -/
def online_message : List Char := "on".toList

/-- The state established by the constructor `MqttManager::MqttManager()`:
port 1883, `reconnectDelay` 1000, `lastReconnectAttempt` 0.  The two
character buffers are uninitialised in the source; the model zero-fills
them (no theorem below depends on their initial content, because
`setServer`/`setLwt` overwrite the full buffer). -/
def initState : MqttState :=
  { mqtt_server := List.replicate 16 (Char.ofNat 0)
    mqtt_port := 1883
    lwt_topic := List.replicate 64 (Char.ofNat 0)
    lastReconnectAttempt := 0
    reconnectDelay := 1000 }

/-- Model of `MqttManager::setServer` (MqttManager.cpp lines 124-127):
`strncpy(mqtt_server, server, sizeof(mqtt_server)); mqtt_port = port;`.
No I/O, no validation. -/
def setServer (server : List Char) (port : Int) (s : MqttState) :
    MqttState × List Event :=
  ({ s with mqtt_server := strncpy server 16, mqtt_port := port }, [])

/-- Model of `MqttManager::setLwt` (MqttManager.cpp lines 130-132):
`strncpy(lwt_topic, topic, sizeof(lwt_topic));`. -/
def setLwt (topic : List Char) (s : MqttState) : MqttState × List Event :=
  ({ s with lwt_topic := strncpy topic 64 }, [])

/-- Model of `MqttManager::connect` (MqttManager.cpp lines 135-146): when the
client is not connected, configure server/port, keep-alive 60 s, the LWT
will message (QoS 0, retain, offline payload) and request a connection;
otherwise do nothing. -/
def connect (clientConnected : Bool) (s : MqttState) :
    MqttState × List Event :=
  if !clientConnected then
    (s, [.serialOut "Connecting to MQTT server...".toList,
         .setServerOp (cstr s.mqtt_server) s.mqtt_port,
         .setKeepAliveOp 60,
         .setWillOp (cstr s.lwt_topic) 0 true offline_message,
         .connectOp])
  else (s, [])

/-- Model of `MqttManager::reconnect` (MqttManager.cpp lines 149-161): when not
connected and `millis() - lastReconnectAttempt >= reconnectDelay`, call
`connect()`, record `lastReconnectAttempt = millis()` and double
`reconnectDelay` while it is below `maxReconnectDelay`. -/
def reconnect (clientConnected : Bool) (now : Nat) (s : MqttState) :
    MqttState × List Event :=
  if !clientConnected && decide (s.reconnectDelay ≤ usub32 (millisVal now) s.lastReconnectAttempt) then
    let c := connect clientConnected s
    ({ c.1 with
        lastReconnectAttempt := millisVal now
        reconnectDelay :=
          if c.1.reconnectDelay < maxReconnectDelay then c.1.reconnectDelay * 2
          else c.1.reconnectDelay },
     .serialOut "Attempting MQTT reconnect...".toList :: c.2)
  else (s, [])

/-- Model of `MqttManager::sendMessage` (MqttManager.cpp lines 181-192): when
connected, publish (QoS 0, retain=true) and log; otherwise log the
failure and call `reconnect()`. -/
def sendMessage (clientConnected : Bool) (now : Nat)
    (topic msg : List Char) (s : MqttState) : MqttState × List Event :=
  if clientConnected then
    (s, [.publishOp topic 0 true msg,
         .serialOut "MQTT message sent: ".toList,
         .serialOut topic,
         .serialOut " -> ".toList,
         .serialOut msg])
  else
    let r := reconnect clientConnected now s
    (r.1, .serialOut "MQTT not connected!".toList :: r.2)

/-- Model of `MqttManager::onConnect` (MqttManager.cpp lines 164-171): log, send
the online message on the LWT topic, then reset `reconnectDelay` to
1000 ms. -/
def onConnect (clientConnected : Bool) (now : Nat) (s : MqttState) :
    MqttState × List Event :=
  let r := sendMessage clientConnected now (cstr s.lwt_topic) online_message s
  ({ r.1 with reconnectDelay := 1000 },
   .serialOut "Connected to MQTT broker".toList :: r.2)

/-- Model of `MqttManager::onDisconnect` (MqttManager.cpp lines 175-178): log and
call `reconnect()`. -/
def onDisconnect (clientConnected : Bool) (now : Nat) (s : MqttState) :
    MqttState × List Event :=
  let r := reconnect clientConnected now s
  (r.1, .serialOut "Disconnected from MQTT broker".toList :: r.2)

/-- Model of `MqttManager::isConnected` (MqttManager.cpp lines 195-197): return
the client status; no state change and no events. -/
def isConnected (clientConnected : Bool) (s : MqttState) :
    (MqttState × List Event) × Bool :=
  ((s, []), clientConnected)

/-- One public operation on the manager, with the environment inputs it
needs (the client's connection status and the current time). -/
inductive Op where
  | setServer (server : List Char) (port : Int)
  | setLwt (topic : List Char)
  | connect (clientConnected : Bool)
  | reconnect (clientConnected : Bool) (now : Nat)
  | sendMessage (clientConnected : Bool) (now : Nat) (topic msg : List Char)
  | isConnected (clientConnected : Bool)
  | onConnect (clientConnected : Bool) (now : Nat)
  | onDisconnect (clientConnected : Bool) (now : Nat)

/-- Run one operation. -/
def runOp (op : Op) (s : MqttState) : MqttState × List Event :=
  match op with
  | .setServer server port => setServer server port s
  | .setLwt topic => setLwt topic s
  | .connect c => connect c s
  | .reconnect c now => reconnect c now s
  | .sendMessage c now topic msg => sendMessage c now topic msg s
  | .isConnected c => (isConnected c s).1
  | .onConnect c now => onConnect c now s
  | .onDisconnect c now => onDisconnect c now s

/-- Run a sequence of operations from a state, keeping only the state. -/
def runOps (ops : List Op) (s : MqttState) : MqttState :=
  ops.foldl (fun t op => (runOp op t).1) s

/-- Run a sequence of `reconnect()` calls while disconnected, at the
given times. -/
def runReconnectSeq : List Nat → MqttState → MqttState
  | [], s => s
  | t :: ts, s => runReconnectSeq ts (reconnect false t s).1

/-- Every `reconnect()` call in the sequence fires: at each step, the
elapsed 32-bit time since `lastReconnectAttempt` has reached
`reconnectDelay` (and the client is disconnected), so each call is a
failed connect attempt. -/
def allFire : List Nat → MqttState → Bool
  | [], _ => true
  | t :: ts, s =>
    decide (s.reconnectDelay ≤ usub32 (millisVal t) s.lastReconnectAttempt) &&
      allFire ts (reconnect false t s).1

end MqttManager

namespace MqttManager

/-- The call `connect()` leaves the member state unchanged in both branches. -/
theorem connect_fst (c : Bool) (s : MqttState) : (connect c s).1 = s := by
  cases c <;> rfl

/-- The events emitted by `connect()` contain no publish operation. -/
theorem connect_no_publish (c : Bool) (s : MqttState) :
    (connect c s).2.filter Event.isPublish = [] := by
  cases c <;> simp [connect, Event.isPublish]

/-- The events emitted by `reconnect()` contain no publish operation. -/
theorem reconnect_no_publish (c : Bool) (now : Nat) (s : MqttState) :
    (reconnect c now s).2.filter Event.isPublish = [] := by
  unfold reconnect
  split
  · next h =>
    rw [Bool.and_eq_true] at h
    obtain ⟨hc, -⟩ := h
    rw [Bool.not_eq_eq_eq_not, Bool.not_true] at hc
    subst hc
    simp [connect, Event.isPublish]
  · simp

end MqttManager

namespace MqttManager

/-- C5: when the underlying client reports connected, `reconnect()`
performs no transport operation (it emits no events at all) and leaves
the whole member state — in particular `reconnectDelay` and
`lastReconnectAttempt` — unchanged. -/
theorem reconnect_connected_noop (now : Nat) (s : MqttState) :
    reconnect true now s = (s, []) := by
  simp [reconnect]

/-- C7: when the client is not connected, `connect()` leaves the state
unchanged and issues exactly: the connecting log line, `setServer` with
the stored address and port, `setKeepAlive(60)`, `setWill` on the stored
LWT topic with QoS 0, retain=true and the offline payload "off", and the
asynchronous connection request; when the client is already connected it
is a complete no-op. -/
theorem connect_configures_and_requests (s : MqttState) :
    connect false s =
      (s, [.serialOut "Connecting to MQTT server...".toList,
           .setServerOp (cstr s.mqtt_server) s.mqtt_port,
           .setKeepAliveOp 60,
           .setWillOp (cstr s.lwt_topic) 0 true ("off".toList),
           .connectOp]) ∧
    connect true s = (s, []) := by
  exact ⟨rfl, rfl⟩

/-- C8: `connect()` never modifies the member state (in particular not
`reconnectDelay` or `lastReconnectAttempt`); `setServer` and `setLwt`
leave both retry fields unchanged; `sendMessage` while connected leaves
the state unchanged — so only `reconnect()` moves `lastReconnectAttempt`
and doubles `reconnectDelay`, and only `onConnect` resets it. -/
theorem connect_preserves_retry_state (c : Bool) (s : MqttState)
    (server : List Char) (port : Int) (topic : List Char)
    (now : Nat) (t msg : List Char) :
    (connect c s).1 = s ∧
    (setServer server port s).1.reconnectDelay = s.reconnectDelay ∧
    (setServer server port s).1.lastReconnectAttempt = s.lastReconnectAttempt ∧
    (setLwt topic s).1.reconnectDelay = s.reconnectDelay ∧
    (setLwt topic s).1.lastReconnectAttempt = s.lastReconnectAttempt ∧
    (sendMessage true now t msg s).1 = s := by
  refine ⟨connect_fst c s, rfl, rfl, rfl, rfl, rfl⟩

/-- C3: whenever the connection-success callback `onConnect` runs (the
client reports connected), its trace publishes exactly the online
payload "on" to the stored LWT topic with QoS 0 and retain=true, and it
resets `reconnectDelay` to exactly 1000 ms, whatever its prior value. -/
theorem onConnect_publishes_online_and_resets (now : Nat) (s : MqttState) :
    (onConnect true now s).2.filter Event.isPublish =
      [.publishOp (cstr s.lwt_topic) 0 true ("on".toList)] ∧
    (onConnect true now s).1.reconnectDelay = 1000 := by
  constructor
  · simp [onConnect, sendMessage, Event.isPublish, online_message]
  · rfl

end MqttManager

namespace MqttManager

/-- C6: `sendMessage` while disconnected is exactly the failure log line
followed by one `reconnect()` invocation (state and trace), its trace
never contains a publish operation nor the success log line; while
connected it publishes exactly the payload to the topic with QoS 0 and
retain=true. -/
theorem sendMessage_disconnected_reconnects (now : Nat)
    (topic msg : List Char) (s : MqttState) :
    sendMessage false now topic msg s =
      ((reconnect false now s).1,
        .serialOut "MQTT not connected!".toList :: (reconnect false now s).2) ∧
    (sendMessage false now topic msg s).2.filter Event.isPublish = [] ∧
    Event.serialOut "MQTT message sent: ".toList ∉
      (sendMessage false now topic msg s).2 ∧
    (sendMessage true now topic msg s).2.filter Event.isPublish =
      [.publishOp topic 0 true msg] := by
  refine ⟨rfl, ?_, ?_, ?_⟩
  · show (Event.serialOut _ :: (reconnect false now s).2).filter Event.isPublish = []
    rw [List.filter_cons_of_neg (by simp [Event.isPublish])]
    exact reconnect_no_publish false now s
  · show Event.serialOut _ ∉ Event.serialOut _ :: (reconnect false now s).2
    intro hmem
    rcases List.mem_cons.1 hmem with h | h
    · exact absurd (Event.serialOut.inj h) (by decide)
    · unfold reconnect at h
      split at h
      · rcases List.mem_cons.1 h with h2 | h2
        · exact absurd (Event.serialOut.inj h2) (by decide)
        · simp only [connect, Bool.not_false, if_pos rfl] at h2
          rcases List.mem_cons.1 h2 with h3 | h3
          · exact absurd (Event.serialOut.inj h3) (by decide)
          · simp at h3
      · simp at h
  · simp [sendMessage, Event.isPublish]

end MqttManager

namespace MqttManager

/-- C4: while disconnected, if the 32-bit elapsed time since
`lastReconnectAttempt` is strictly below `reconnectDelay`, then
`reconnect()` is a complete no-op (no transport operation, state —
including `reconnectDelay` and `lastReconnectAttempt` — unchanged), and
the `reconnect()` triggered from the disconnection callback
`onDisconnect` likewise issues no transport operation and leaves the
state unchanged. -/
theorem reconnect_within_backoff_noop (now : Nat) (s : MqttState)
    (h : usub32 (millisVal now) s.lastReconnectAttempt < s.reconnectDelay) :
    reconnect false now s = (s, []) ∧
    (onDisconnect false now s).1 = s ∧
    (onDisconnect false now s).2.filter Event.isTransport = [] := by
  have hgate : reconnect false now s = (s, []) := by
    unfold reconnect
    rw [if_neg]
    simp only [Bool.not_false, Bool.true_and, decide_eq_true_eq]
    omega
  refine ⟨hgate, ?_, ?_⟩
  · show (reconnect false now s).1 = s
    rw [hgate]
  · show (Event.serialOut _ :: (reconnect false now s).2).filter Event.isTransport = []
    rw [hgate]
    rfl

/-- Witness for C4 at `now = 500` from the initial state: 500 ms have
elapsed but the initial backoff window is 1000 ms. -/
theorem reconnect_within_backoff_noop_witness :
    usub32 (millisVal 500) initState.lastReconnectAttempt <
      initState.reconnectDelay ∧
    (reconnect false 500 initState = (initState, []) ∧
      (onDisconnect false 500 initState).1 = initState ∧
      (onDisconnect false 500 initState).2.filter Event.isTransport = []) :=
  ⟨by decide, reconnect_within_backoff_noop 500 initState (by decide)⟩

end MqttManager

/-- Reading back a NUL-free string copied into a larger zero-padded
buffer recovers the string. -/
theorem cstr_append_replicate (src : List Char) (k : Nat)
    (h : src.all (fun c => c != Char.ofNat 0) = true) :
    cstr (src ++ List.replicate k (Char.ofNat 0)) = src := by
  unfold cstr
  induction src with
  | nil =>
    cases k with
    | zero => rfl
    | succ k => simp [List.replicate_succ, List.takeWhile_cons]
  | cons a l ih =>
    rw [List.all_cons, Bool.and_eq_true] at h
    simp [List.takeWhile_cons, h.1, ih h.2]

/-- A NUL-free string that fits below the buffer size round-trips through
`strncpy` and the C-string read. -/
theorem cstr_strncpy_of_lt (src : List Char) (n : Nat)
    (h : src.all (fun c => c != Char.ofNat 0) = true)
    (hl : src.length < n) :
    cstr (strncpy src n) = src := by
  unfold strncpy
  rw [if_neg (by omega)]
  exact cstr_append_replicate src _ h

namespace MqttManager

/-- C10: storing an address of at least 16 characters (resp. an LWT topic
of at least 64) leaves the fixed buffer holding exactly the first 16
(resp. 64) characters of the source with no NUL terminator anywhere in
the buffer, so the stored data is not a bounded C string. -/
theorem strncpy_overflow_unterminated (server topic : List Char)
    (port : Int) (s : MqttState)
    (hs : server.all (fun c => c != Char.ofNat 0) = true)
    (hsl : 16 ≤ server.length)
    (ht : topic.all (fun c => c != Char.ofNat 0) = true)
    (htl : 64 ≤ topic.length) :
    (setServer server port s).1.mqtt_server = server.take 16 ∧
    Char.ofNat 0 ∉ (setServer server port s).1.mqtt_server ∧
    (setLwt topic s).1.lwt_topic = topic.take 64 ∧
    Char.ofNat 0 ∉ (setLwt topic s).1.lwt_topic := by
  have hsr : (setServer server port s).1.mqtt_server = server.take 16 := by
    show strncpy server 16 = server.take 16
    unfold strncpy
    rw [if_pos hsl]
  have htr : (setLwt topic s).1.lwt_topic = topic.take 64 := by
    show strncpy topic 64 = topic.take 64
    unfold strncpy
    rw [if_pos htl]
  rw [List.all_eq_true] at hs ht
  refine ⟨hsr, ?_, htr, ?_⟩
  · rw [hsr]
    intro hmem
    have := hs _ (List.take_subset 16 server hmem)
    simp at this
  · rw [htr]
    intro hmem
    have := ht _ (List.take_subset 64 topic hmem)
    simp at this

/-- Witness for C10: a 16-character address and a 64-character topic. -/
theorem strncpy_overflow_unterminated_witness :
    ((List.replicate 16 'a').all (fun c => c != Char.ofNat 0) = true ∧
      16 ≤ (List.replicate 16 'a').length ∧
      (List.replicate 64 'b').all (fun c => c != Char.ofNat 0) = true ∧
      64 ≤ (List.replicate 64 'b').length) ∧
    ((setServer (List.replicate 16 'a') 1883 initState).1.mqtt_server =
        (List.replicate 16 'a').take 16 ∧
      Char.ofNat 0 ∉ (setServer (List.replicate 16 'a') 1883 initState).1.mqtt_server ∧
      (setLwt (List.replicate 64 'b') initState).1.lwt_topic =
        (List.replicate 64 'b').take 64 ∧
      Char.ofNat 0 ∉ (setLwt (List.replicate 64 'b') initState).1.lwt_topic) :=
  ⟨⟨by decide, by decide, by decide, by decide⟩,
    strncpy_overflow_unterminated (List.replicate 16 'a') (List.replicate 64 'b')
      1883 initState (by decide) (by decide) (by decide) (by decide)⟩

end MqttManager

namespace MqttManager

/-- C9 counterexample: the claim "setServer stores the given address
unchanged for every address string" fails at the 17-character address
"192.168.100.200.5": the stored buffer holds only its first 16
characters, so reading the stored server string back does not give the
given value. -/
theorem setServer_truncation_counterexample :
    cstr ((setServer "192.168.100.200.5".toList 1883 initState).1.mqtt_server) ≠
      "192.168.100.200.5".toList := by
  decide

/-- C9 amended: `setServer` and `setLwt` perform no validation, no I/O
and never report an error: for every port (including 0, negative values
and values above 65535) the port is stored unchanged, and every NUL-free
address that fits the 16-byte buffer (length < 16) and every NUL-free
topic that fits the 64-byte buffer (length < 64) — including the empty
string — is stored unchanged. -/
theorem setServer_setLwt_unvalidated (server topic : List Char)
    (port : Int) (s : MqttState)
    (hs : server.all (fun c => c != Char.ofNat 0) = true)
    (hsl : server.length < 16)
    (ht : topic.all (fun c => c != Char.ofNat 0) = true)
    (htl : topic.length < 64) :
    cstr ((setServer server port s).1.mqtt_server) = server ∧
    (setServer server port s).1.mqtt_port = port ∧
    (setServer server port s).2 = [] ∧
    cstr ((setLwt topic s).1.lwt_topic) = topic ∧
    (setLwt topic s).2 = [] :=
  ⟨cstr_strncpy_of_lt server 16 hs hsl, rfl, rfl,
    cstr_strncpy_of_lt topic 64 ht htl, rfl⟩

/-- Witness for the amended C9: empty address, port 0 (out of the valid
TCP range), topic "dev/status". -/
theorem setServer_setLwt_unvalidated_witness :
    (([] : List Char).all (fun c => c != Char.ofNat 0) = true ∧
      ([] : List Char).length < 16 ∧
      ("dev/status".toList).all (fun c => c != Char.ofNat 0) = true ∧
      ("dev/status".toList).length < 64) ∧
    (cstr ((setServer [] 0 initState).1.mqtt_server) = [] ∧
      (setServer ([] : List Char) (0 : Int) initState).1.mqtt_port = 0 ∧
      (setServer ([] : List Char) (0 : Int) initState).2 = [] ∧
      cstr ((setLwt "dev/status".toList initState).1.lwt_topic) =
        "dev/status".toList ∧
      (setLwt "dev/status".toList initState).2 = []) :=
  ⟨⟨by decide, by decide, by decide, by decide⟩,
    setServer_setLwt_unvalidated [] "dev/status".toList 0 initState
      (by decide) (by decide) (by decide) (by decide)⟩

end MqttManager

namespace MqttManager

/-- One fired `reconnect()` call (disconnected, backoff window elapsed)
advances the delay from `min (1000 * 2 ^ n) 32000` to
`min (1000 * 2 ^ (n + 1)) 32000`. -/
theorem reconnect_delay_step (now : Nat) (s : MqttState) (n : Nat)
    (hd : s.reconnectDelay = min (1000 * 2 ^ n) 32000)
    (hf : s.reconnectDelay ≤ usub32 (millisVal now) s.lastReconnectAttempt) :
    ((reconnect false now s).1).reconnectDelay =
      min (1000 * 2 ^ (n + 1)) 32000 := by
  unfold reconnect
  rw [if_pos (by simp [hf])]
  simp only [connect_fst]
  show (if s.reconnectDelay < maxReconnectDelay then s.reconnectDelay * 2
        else s.reconnectDelay) = min (1000 * 2 ^ (n + 1)) 32000
  rw [hd, pow_succ]
  unfold maxReconnectDelay
  rcases le_or_lt n 4 with hn | hn
  · have h1 : (2 : Nat) ^ n ≤ 2 ^ 4 := Nat.pow_le_pow_right (by norm_num) hn
    norm_num at h1
    rw [if_pos (by omega)]
    omega
  · have h1 : (2 : Nat) ^ 5 ≤ 2 ^ n := Nat.pow_le_pow_right (by norm_num) hn
    norm_num at h1
    rw [if_neg (by omega)]
    omega

/-- A sequence of fired `reconnect()` calls advances the delay by one
doubling (capped) per call. -/
theorem delay_after_fires (ts : List Nat) :
    ∀ (s : MqttState) (n : Nat),
      s.reconnectDelay = min (1000 * 2 ^ n) 32000 →
      allFire ts s = true →
      (runReconnectSeq ts s).reconnectDelay =
        min (1000 * 2 ^ (n + ts.length)) 32000 := by
  induction ts with
  | nil =>
    intro s n hd _
    simpa [runReconnectSeq] using hd
  | cons t ts ih =>
    intro s n hd hfire
    unfold allFire at hfire
    rw [Bool.and_eq_true, decide_eq_true_eq] at hfire
    have hstep := reconnect_delay_step t s n hd hfire.1
    have hrec := ih ((reconnect false t s).1) (n + 1) hstep hfire.2
    show (runReconnectSeq ts ((reconnect false t s).1)).reconnectDelay =
      min (1000 * 2 ^ (n + (ts.length + 1))) 32000
    rw [show n + (ts.length + 1) = n + 1 + ts.length from by omega]
    exact hrec

/-- C1: after any sequence of `N` consecutive failed connect attempts
from the initial state (each `reconnect()` call fires while
disconnected), `reconnectDelay` equals `min (1000 * 2 ^ N) 32000`
milliseconds: it starts at 1000 ms, doubles on each attempt while below
the 32000 ms cap, and never exceeds 32000 ms. -/
theorem reconnectDelay_after_failures (ts : List Nat)
    (h : allFire ts initState = true) :
    (runReconnectSeq ts initState).reconnectDelay =
      min (1000 * 2 ^ ts.length) 32000 := by
  have h0 : initState.reconnectDelay = min (1000 * 2 ^ 0) 32000 := by decide
  simpa using delay_after_fires ts initState 0 h0 h

/-- Witness for C1: three failed attempts at t = 1000, 3000, 7000 ms
(each at the end of the then-current backoff window) leave the delay at
min (1000 * 2 ^ 3) 32000 = 8000 ms. -/
theorem reconnectDelay_after_failures_witness :
    allFire [1000, 3000, 7000] initState = true ∧
    (runReconnectSeq [1000, 3000, 7000] initState).reconnectDelay =
      min (1000 * 2 ^ ([1000, 3000, 7000] : List Nat).length) 32000 :=
  ⟨by decide, reconnectDelay_after_failures [1000, 3000, 7000] (by decide)⟩

end MqttManager

namespace MqttManager

/-- The call `reconnect()` keeps the delay of the form `1000 * 2 ^ k` with
`k ≤ 5`. -/
theorem reconnect_preserves_pow (c : Bool) (now : Nat) (s : MqttState)
    (h : ∃ k, k ≤ 5 ∧ s.reconnectDelay = 1000 * 2 ^ k) :
    ∃ k, k ≤ 5 ∧ ((reconnect c now s).1).reconnectDelay = 1000 * 2 ^ k := by
  by_cases hc :
      (!c && decide (s.reconnectDelay ≤ usub32 (millisVal now) s.lastReconnectAttempt)) = true
  · unfold reconnect
    rw [if_pos hc]
    simp only [connect_fst]
    obtain ⟨k, hk, hd⟩ := h
    show ∃ m, m ≤ 5 ∧
      (if s.reconnectDelay < maxReconnectDelay then s.reconnectDelay * 2
       else s.reconnectDelay) = 1000 * 2 ^ m
    rw [hd]
    unfold maxReconnectDelay
    rcases le_or_lt k 4 with hk4 | hk4
    · have h1 : (2 : Nat) ^ k ≤ 2 ^ 4 := Nat.pow_le_pow_right (by norm_num) hk4
      norm_num at h1
      refine ⟨k + 1, by omega, ?_⟩
      rw [if_pos (by omega), pow_succ]
      ring
    · have hk5 : k = 5 := by omega
      subst hk5
      refine ⟨5, le_refl 5, ?_⟩
      rw [if_neg (by norm_num)]
  · unfold reconnect
    rw [if_neg hc]
    exact h

/-- Every public operation keeps the delay of the form `1000 * 2 ^ k`
with `k ≤ 5`. -/
theorem runOp_preserves_pow (op : Op) (s : MqttState)
    (h : ∃ k, k ≤ 5 ∧ s.reconnectDelay = 1000 * 2 ^ k) :
    ∃ k, k ≤ 5 ∧ ((runOp op s).1).reconnectDelay = 1000 * 2 ^ k := by
  cases op with
  | setServer server port => exact h
  | setLwt topic => exact h
  | connect c =>
    have hfr := connect_fst c s
    show ∃ k, k ≤ 5 ∧ ((connect c s).1).reconnectDelay = 1000 * 2 ^ k
    rw [hfr]
    exact h
  | reconnect c now => exact reconnect_preserves_pow c now s h
  | sendMessage c now topic msg =>
    cases c with
    | true => exact h
    | false => exact reconnect_preserves_pow false now s h
  | isConnected c => exact h
  | onConnect c now =>
    refine ⟨0, by norm_num, ?_⟩
    show (1000 : Nat) = 1000 * 2 ^ 0
    norm_num
  | onDisconnect c now => exact reconnect_preserves_pow c now s h

/-- Running any sequence of operations keeps the delay of the form
`1000 * 2 ^ k` with `k ≤ 5`. -/
theorem runOps_preserves_pow (ops : List Op) :
    ∀ s : MqttState, (∃ k, k ≤ 5 ∧ s.reconnectDelay = 1000 * 2 ^ k) →
      ∃ k, k ≤ 5 ∧ (runOps ops s).reconnectDelay = 1000 * 2 ^ k := by
  induction ops with
  | nil => intro s h; exact h
  | cons op ops ih =>
    intro s h
    have hstep : runOps (op :: ops) s = runOps ops ((runOp op s).1) := rfl
    rw [hstep]
    exact ih _ (runOp_preserves_pow op s h)

/-- C2: in every state reachable from the initial state by any sequence
of the public operations (`setServer`, `setLwt`, `connect`, `reconnect`,
`sendMessage`, `isConnected`, `onConnect`, `onDisconnect`),
`reconnectDelay` lies in the interval [1000, 32000] milliseconds. -/
theorem reconnectDelay_invariant (ops : List Op) :
    1000 ≤ (runOps ops initState).reconnectDelay ∧
    (runOps ops initState).reconnectDelay ≤ 32000 := by
  obtain ⟨k, hk, hd⟩ :=
    runOps_preserves_pow ops initState ⟨0, by norm_num, by decide⟩
  have h1 : (2 : Nat) ^ k ≤ 2 ^ 5 := Nat.pow_le_pow_right (by norm_num) hk
  have h2 : (1 : Nat) ≤ 2 ^ k := Nat.one_le_pow k 2 (by norm_num)
  norm_num at h1
  omega

end MqttManager
